import Mathlib

/-!
Verification of the Project Archive Processing & Preview Rendering Pipeline
of the `circuit-scope` backend (`src/backend/app/services/previews.py`,
`src/backend/app/services/projects.py`, `src/backend/app/services/svg_utils.py`).

The Python code is shallowly embedded: POSIX paths are modelled as lists of
path segments (each a list of characters), floating point quantities as
rationals, machine-level file system and subprocess effects as explicit
environment records describing their outcomes, and Python exceptions as
`Except` / `Option` results.
-/

namespace CircuitScope

/-! ## Path model

A POSIX path string is modelled by its character list.  `splitSegAux`
splits on `/` exactly as `str.split("/")` would; `pathParts` then mirrors
`pathlib.PurePosixPath(s).parts` for relative path bodies: empty segments
and `.` segments are dropped, `..` segments are kept.
-/

/-- Split a character list on `/`, keeping empty pieces (like `str.split`). -/
def splitSegAux : List Char → List Char → List (List Char)
  | [], acc => [acc.reverse]
  | c :: rest, acc =>
    if c = '/' then acc.reverse :: splitSegAux rest []
    else splitSegAux rest (c :: acc)

/-- Segment list of a path string, as `pathlib` parses it: empty and `.`
components are discarded, `..` components survive. -/
def pathParts (cs : List Char) : List (List Char) :=
  (splitSegAux cs []).filter (fun p => p ≠ [] ∧ p ≠ ['.'])

/-- A POSIX path string is absolute iff it starts with `/`. -/
def pathIsAbs (cs : List Char) : Bool :=
  match cs with
  | [] => false
  | c :: _ => c = '/'

/-- Index of the last `.` in a name, mirroring Python's `str.rfind('.')`. -/
def lastDotIdxAux : List Char → Nat → Option Nat → Option Nat
  | [], _, acc => acc
  | c :: rest, i, acc =>
    lastDotIdxAux rest (i + 1) (if c = '.' then some i else acc)

/-- `pathlib.PurePath.suffix` of a single name: the substring from the last
dot, provided that dot is neither the first nor the last character. -/
def pySuffix (name : List Char) : List Char :=
  match lastDotIdxAux name 0 none with
  | none => []
  | some i => if 0 < i ∧ i < name.length - 1 then name.drop i else []

/-- Last `pathlib` component of a path (the `name`), `[]` when there is none. -/
def lastSeg (cs : List Char) : List Char :=
  (pathParts cs).getLast?.getD []

/-- `Path(filename).suffix` as used on archive member names. -/
def memberSuffix (cs : List Char) : List Char :=
  pySuffix (lastSeg cs)

end CircuitScope

namespace CircuitScope

/-! ## Archive extraction (`_safe_extract`)

`(dest_root / filename).resolve()` followed by `relative_to(dest_root)` is
modelled lexically (no symbolic links in the scratch directory): the member's
segments are folded over the resolved destination-root segments, `..`
popping one segment (and staying at the file system root when already
there), and the containment test asks whether the destination root is a
prefix of the resolved result.
-/

/-- Resolve `destRoot / member` lexically: start from `destRoot` (or the
file system root for absolute member names) and apply each segment, `..`
popping the last segment. -/
def resolveUnder (destRoot : List (List Char)) (member : List Char) :
    List (List Char) :=
  let start := if pathIsAbs member then [] else destRoot
  (pathParts member).foldl
    (fun acc p => if p = ['.', '.'] then acc.dropLast else acc ++ [p]) start

/-- `target_path.relative_to(dest_root)` succeeds iff the resolved target
still has the destination root as a prefix. -/
def withinDest (destRoot : List (List Char)) (member : List Char) : Bool :=
  destRoot.isPrefixOf (resolveUnder destRoot member)

/-- `_SAFE_SOURCE_SUFFIXES`. -/
def zipWhitelist : List (List Char) :=
  [".kicad_sch".data, ".kicad_pcb".data, ".kicad_pro".data, ".kicad_prl".data]

/-- The unconditional OS-metadata skip of `_safe_extract`:
`filename.startswith("__MACOSX/") or filename.endswith("/.DS_Store")`. -/
def metaSkip (member : List Char) : Bool :=
  "__MACOSX/".data.isPrefixOf member ||
    "/.DS_Store".data.reverse.isPrefixOf member.reverse

/-- Decision taken by the body of `_safe_extract`'s loop for one member:
`true` iff `zip_file.extract` is invoked for it. -/
def extractAllowed (destRoot : List (List Char)) (member : String) : Bool :=
  let cs := member.data
  if metaSkip cs then false
  else if withinDest destRoot cs then true
  else decide (memberSuffix cs ∈ zipWhitelist)

/-- `_safe_extract`: the members of the archive that actually get extracted,
in archive order. -/
def safe_extract (destRoot : List (List Char)) (members : List String) :
    List String :=
  members.filter (extractAllowed destRoot)

end CircuitScope

namespace CircuitScope

/-! ### Claim C1 -/

/-- Concrete resolved destination root for the C1 counterexample. -/
def exDest : List (List Char) := ["tmp".data, "work".data, "extracted".data]

/-- Archive member that escapes the root, carries a whitelisted suffix, and
falls under the unconditional OS-metadata skip. -/
def exMember : String := "__MACOSX/../../evil.kicad_sch"

/-- Claim C1, counterexample: `exMember` resolves outside the destination
root and its suffix `.kicad_sch` is whitelisted, yet `_safe_extract` does not
extract it (the `__MACOSX/` prefix is skipped unconditionally, before the
containment test), contradicting "an escaping entry whose suffix is in the
whitelist is extracted". -/
theorem C1_counterexample :
    withinDest exDest exMember.data = false ∧
    memberSuffix exMember.data ∈ zipWhitelist ∧
    safe_extract exDest [exMember] = [] := by decide

/-- Claim C1, amended: for every archive entry whose resolved target lies
outside the destination root, the entry is extracted iff its suffix is in
the whitelist AND it is not an OS-metadata entry (`__MACOSX/` prefix or
`/.DS_Store` suffix, which are skipped unconditionally); in particular an
escaping entry with a non-whitelisted suffix is never extracted. -/
theorem C1_escape_extraction (destRoot : List (List Char))
    (members : List String) (m : String) (hmem : m ∈ members)
    (hesc : withinDest destRoot m.data = false) :
    m ∈ safe_extract destRoot members ↔
      (memberSuffix m.data ∈ zipWhitelist ∧ metaSkip m.data = false) := by
  unfold safe_extract
  rw [List.mem_filter]
  unfold extractAllowed
  cases hms : metaSkip m.data <;> simp [hms, hesc, hmem]

/-- Claim C1, witness: a plain parent-directory-escaping `.kicad_sch` entry
is extracted by `_safe_extract`. -/
theorem C1_witness :
    ("../a.kicad_sch" ∈ safe_extract [['d']] ["../a.kicad_sch"] ↔
      (memberSuffix "../a.kicad_sch".data ∈ zipWhitelist ∧
        metaSkip "../a.kicad_sch".data = false)) :=
  C1_escape_extraction [['d']] ["../a.kicad_sch"] "../a.kicad_sch"
    (by decide) (by decide)

end CircuitScope

namespace CircuitScope

/-! ## Processing orchestration

`process_project_archive` and `run_project_processing_task` are embedded as
functions over an environment record describing the outcome of each
external effect (storage download, zip open, KiCad CLI invocations).  The
render-stage payloads that the claims do not inspect (page dictionaries,
layer entries, model entries) are carried as opaque values supplied by the
environment; the control flow — which exceptions are raised, which are
swallowed where, and what ends up in the index — follows the source.
-/

/-- Payload of the single `schematics` index entry (`_render_schematic_bundle`
returns a one-element list); its inner fields are not inspected by the
claims and are carried opaquely. -/
structure SchBundle where
  filename : String
  pageCount : Nat
deriving DecidableEq

/-- Effect outcomes inside `_render_schematic_bundle`: whether `_run_cli`
succeeded (with its `RuntimeError` message otherwise), the sorted list of
SVG files the export produced, and the bundle assembled in the non-empty
case. -/
structure SchEnv where
  cliOk : Bool
  cliErrMsg : String
  exported : List String
  bundle : SchBundle
deriving DecidableEq

/-- `_render_schematic_bundle`: propagates the CLI failure, raises
`RuntimeError("No schematic SVG generated")` when the export produced zero
SVG files, and otherwise returns the single bundle entry. -/
def render_schematic_bundle (e : SchEnv) : Except String (List SchBundle) :=
  if e.cliOk = false then .error e.cliErrMsg
  else if e.exported = [] then .error "No schematic SVG generated"
  else .ok [e.bundle]

/-- The in-memory preview index (`index` dict of `process_project_archive`);
`project` is the metadata dict, layout/model entries are carried opaquely as
their paths. -/
structure PreviewIndex where
  project : List (String × String)
  schematics : List SchBundle
  layouts : List String
  models : List String
deriving DecidableEq

/-- Environment of one `process_project_archive` run: outcome of the archive
download, of opening/extracting the zip, the parsed project metadata, the
discovered schematic sources, the schematic-stage effects, whether a board
file was found, and the outcomes of the two board stages. -/
structure PipelineEnv where
  downloadOk : Bool
  zipOk : Bool
  projectMetadata : List (String × String)
  schematicSources : List String
  schEnv : SchEnv
  boardFile : Bool
  boardSvgStage : Except String (List String)
  boardGlbStage : Except String (Option String)

/-- Step 4 of `process_project_archive`: render schematics when sources were
found; any stage exception is caught and logged, leaving `schematics`
untouched. -/
def applySchStage (env : PipelineEnv) (idx : PreviewIndex) : PreviewIndex :=
  if env.schematicSources = [] then idx
  else
    match render_schematic_bundle env.schEnv with
    | .ok bundles => { idx with schematics := bundles }
    | .error _ => idx

/-- Step 5 of `process_project_archive`: render board SVGs (extending
`layouts` when the stage returned a non-empty list) and the GLB model
(appending when an entry was produced); each stage's exception is caught
and logged. -/
def applyBoardStage (env : PipelineEnv) (idx : PreviewIndex) : PreviewIndex :=
  if env.boardFile = false then idx
  else
    let idxa :=
      match env.boardSvgStage with
      | .ok entries =>
          if entries = [] then idx
          else { idx with layouts := idx.layouts ++ entries }
      | .error _ => idx
    match env.boardGlbStage with
    | .ok (some m) => { idxa with models := idxa.models ++ [m] }
    | .ok none => idxa
    | .error _ => idxa

/-- `process_project_archive`: returns `none` when the run ends early
(download failure or `BadZipFile`/`OSError` during extraction — both are
caught and answered with a bare `return`), otherwise the index value that is
written via `_write_index`. -/
def process_project_archive (env : PipelineEnv) : Option PreviewIndex :=
  if env.downloadOk = false then none
  else if env.zipOk = false then none
  else
    some (applyBoardStage env (applySchStage env
      { project := env.projectMetadata, schematics := [],
        layouts := [], models := [] }))

/-- One persisted write to the project's processing status; `completed` also
clears `processing_error`, `failed` stores the exception's message in it. -/
inductive StatusWrite where
  | processing
  | completed
  | failed (msg : String)
deriving DecidableEq

/-- `run_project_processing_task`: the sequence of status writes committed by
the background task, as a function of whether the project row exists and of
the outcome of `process_project_archive` (`Except.error` standing for any
exception raised out of it). The database session itself is the out-of-scope
persistence collaborator and is modelled as reliable. -/
def run_project_processing_task (projectExists : Bool)
    (proc : Except String (Option PreviewIndex)) : List StatusWrite :=
  if projectExists = false then []
  else
    StatusWrite.processing ::
      (match proc with
       | .ok _ => [StatusWrite.completed]
       | .error msg => [StatusWrite.failed msg])

end CircuitScope

namespace CircuitScope

/-! ### Claims C2, C4, C8 -/

/-- Board stages never touch the `schematics` collection. -/
theorem applyBoardStage_schematics (env : PipelineEnv) (idx : PreviewIndex) :
    (applyBoardStage env idx).schematics = idx.schematics := by
  unfold applyBoardStage
  cases env.boardFile with
  | false => simp
  | true =>
    cases env.boardSvgStage with
    | error e =>
      cases env.boardGlbStage with
      | error e2 => simp
      | ok om => cases om <;> simp
    | ok entries =>
      cases env.boardGlbStage with
      | error e2 => by_cases h : entries = [] <;> simp [h]
      | ok om => cases om <;> by_cases h : entries = [] <;> simp [h]

/-- Claim C4: once the background task has written `processing`, it writes
exactly one terminal status (`completed` or `failed`) before returning, even
when the processing run raises; the status never remains `processing`, and
on the exception path the exception's message is stored as the error. -/
theorem C4_terminal_status (projectExists : Bool)
    (proc : Except String (Option PreviewIndex))
    (h : StatusWrite.processing ∈
      run_project_processing_task projectExists proc) :
    (∃ w, run_project_processing_task projectExists proc =
        [StatusWrite.processing, w] ∧
      (w = StatusWrite.completed ∨ ∃ msg, w = StatusWrite.failed msg)) ∧
    (∀ msg, proc = .error msg →
      run_project_processing_task projectExists proc =
        [StatusWrite.processing, StatusWrite.failed msg]) := by
  cases projectExists with
  | false => simp [run_project_processing_task] at h
  | true =>
    cases proc with
    | ok v =>
      refine ⟨⟨StatusWrite.completed, rfl, Or.inl rfl⟩, ?_⟩
      intro msg hmsg
      cases hmsg
    | error msg =>
      exact ⟨⟨StatusWrite.failed msg, rfl, Or.inr ⟨msg, rfl⟩⟩,
        fun msg2 hmsg => by cases hmsg; rfl⟩

/-- Claim C4, witness: a run whose processing raises `"boom"` writes
`processing` then `failed "boom"`. -/
theorem C4_witness :
    (StatusWrite.processing ∈
        run_project_processing_task true (Except.error "boom")) ∧
      ((∃ w, run_project_processing_task true (Except.error "boom") =
          [StatusWrite.processing, w] ∧
        (w = StatusWrite.completed ∨ ∃ msg, w = StatusWrite.failed msg)) ∧
      (∀ msg, (Except.error "boom" : Except String (Option PreviewIndex)) =
          .error msg →
        run_project_processing_task true (Except.error "boom") =
          [StatusWrite.processing, StatusWrite.failed msg])) :=
  ⟨by decide, C4_terminal_status true (Except.error "boom") (by decide)⟩

/-- Claim C2, amended: when the downloaded archive cannot be opened or
parsed as a zip file, extraction aborts the archive processing (no preview
index is produced), but `process_project_archive` swallows the
`BadZipFile`/`OSError` with a bare `return`, so the background task takes
its success path and the persisted status ends at `completed`, not
`failed`. -/
theorem C2_corrupt_archive (env : PipelineEnv)
    (hdl : env.downloadOk = true) (hzip : env.zipOk = false) :
    process_project_archive env = none ∧
    run_project_processing_task true
        (Except.ok (process_project_archive env)) =
      [StatusWrite.processing, StatusWrite.completed] := by
  unfold process_project_archive run_project_processing_task
  simp [hdl, hzip]

/-- Concrete pipeline environment whose zip cannot be opened. -/
def exEnvCorrupt : PipelineEnv :=
  { downloadOk := true, zipOk := false, projectMetadata := [],
    schematicSources := [], boardFile := false,
    schEnv := { cliOk := true, cliErrMsg := "", exported := [],
                bundle := { filename := "", pageCount := 0 } },
    boardSvgStage := Except.ok [], boardGlbStage := Except.ok none }

/-- Claim C2, counterexample: with a corrupt archive the run ends with
status `completed` (and no `failed` write ever happens), refuting the
claimed `failed` terminal status. -/
theorem C2_counterexample :
    process_project_archive exEnvCorrupt = none ∧
    run_project_processing_task true
        (Except.ok (process_project_archive exEnvCorrupt)) =
      [StatusWrite.processing, StatusWrite.completed] ∧
    StatusWrite.failed "" ∉
      run_project_processing_task true
        (Except.ok (process_project_archive exEnvCorrupt)) := by
  refine ⟨rfl, rfl, by decide⟩

/-- Claim C2, witness for the amended claim, at the concrete corrupt-zip
environment. -/
theorem C2_witness :
    process_project_archive exEnvCorrupt = none ∧
    run_project_processing_task true
        (Except.ok (process_project_archive exEnvCorrupt)) =
      [StatusWrite.processing, StatusWrite.completed] :=
  C2_corrupt_archive exEnvCorrupt rfl rfl

/-- Claim C8: when the external export yields zero SVG files the schematic
stage fails with `RuntimeError("No schematic SVG generated")`, the
orchestrator catches it, the `schematics` collection stays empty, and the
run still produces (and writes) an index — it is not aborted. -/
theorem C8_no_sheets (env : PipelineEnv) (hdl : env.downloadOk = true)
    (hzip : env.zipOk = true) (hcli : env.schEnv.cliOk = true)
    (hexp : env.schEnv.exported = []) :
    render_schematic_bundle env.schEnv =
      .error "No schematic SVG generated" ∧
    ∃ idx, process_project_archive env = some idx ∧ idx.schematics = [] := by
  have hstage : render_schematic_bundle env.schEnv =
      .error "No schematic SVG generated" := by
    unfold render_schematic_bundle
    simp [hcli, hexp]
  refine ⟨hstage, ?_⟩
  unfold process_project_archive
  rw [hdl, hzip]
  simp only [Bool.true_eq_false, if_false]
  refine ⟨applyBoardStage env (applySchStage env
    { project := env.projectMetadata, schematics := [],
      layouts := [], models := [] }), rfl, ?_⟩
  rw [applyBoardStage_schematics]
  unfold applySchStage
  by_cases hsrc : env.schematicSources = [] <;> simp [hsrc, hstage]

/-- Concrete pipeline environment where the CLI export succeeds but
produces zero SVG files. -/
def exEnvNoSheets : PipelineEnv :=
  { downloadOk := true, zipOk := true, projectMetadata := [],
    schematicSources := ["a.kicad_sch"], boardFile := false,
    schEnv := { cliOk := true, cliErrMsg := "", exported := [],
                bundle := { filename := "", pageCount := 0 } },
    boardSvgStage := Except.ok [], boardGlbStage := Except.ok none }

/-- Claim C8, witness at the concrete zero-output environment. -/
theorem C8_witness :
    render_schematic_bundle exEnvNoSheets.schEnv =
      .error "No schematic SVG generated" ∧
    ∃ idx, process_project_archive exEnvNoSheets = some idx ∧
      idx.schematics = [] :=
  C8_no_sheets exEnvNoSheets rfl rfl rfl rfl

end CircuitScope

namespace CircuitScope

/-! ## Asset path validation (`validate_preview_asset_path`) -/

/-- The two `FileNotFoundError`s raised during asset-path resolution:
`"Invalid asset path"` and `"Unsupported asset type"`. -/
inductive AssetError where
  | invalidPath
  | unsupportedType
deriving DecidableEq

/-- `_SAFE_ASSET_SUFFIXES`. -/
def safeAssetSuffixes : List (List Char) := [".svg".data, ".glb".data]

/-- `_sanitize_asset_path`: reject absolute paths and paths with a `..`
component, otherwise return the parsed components. -/
def sanitize_asset_path (assetPath : String) :
    Except AssetError (List (List Char)) :=
  let cs := assetPath.data
  if pathIsAbs cs || (pathParts cs).any (fun p => p = ['.', '.']) then
    .error .invalidPath
  else .ok (pathParts cs)

/-- `clean_path.suffix.lower()`. -/
def assetSuffixLower (parts : List (List Char)) : List Char :=
  (pySuffix (parts.getLast?.getD [])).map Char.toLower

/-- `validate_preview_asset_path`: sanitize, join under the project preview
namespace `projects/{project-id}/previews`, and require a whitelisted
extension.  Pure: no filesystem access happens on any branch (the storage
argument of the Python function is unused). -/
def validate_preview_asset_path (projectId : String) (assetPath : String) :
    Except AssetError String :=
  match sanitize_asset_path assetPath with
  | .error e => .error e
  | .ok parts =>
    let storagePath := List.intercalate ['/']
      (["projects".data, projectId.data, "previews".data] ++ parts)
    if assetSuffixLower parts ∈ safeAssetSuffixes then .ok (String.mk storagePath)
    else .error .unsupportedType

/-- Claim C3: a client-supplied asset path that is absolute or contains a
`..` segment fails with the not-found `Invalid asset path` error; a
sanitized path whose lowered extension is not `.svg`/`.glb` fails with the
not-found `Unsupported asset type` error; otherwise the storage path is the
project preview namespace joined with the sanitized relative path. -/
theorem C3_validate_asset_path (pid s : String) :
    ((pathIsAbs s.data = true ∨
        (pathParts s.data).any (fun p => p = ['.', '.']) = true) →
      validate_preview_asset_path pid s = .error .invalidPath) ∧
    (pathIsAbs s.data = false →
      (pathParts s.data).any (fun p => p = ['.', '.']) = false →
      assetSuffixLower (pathParts s.data) ∉ safeAssetSuffixes →
      validate_preview_asset_path pid s = .error .unsupportedType) ∧
    (pathIsAbs s.data = false →
      (pathParts s.data).any (fun p => p = ['.', '.']) = false →
      assetSuffixLower (pathParts s.data) ∈ safeAssetSuffixes →
      validate_preview_asset_path pid s = .ok (String.mk (List.intercalate ['/']
        (["projects".data, pid.data, "previews".data] ++ pathParts s.data)))) := by
  unfold validate_preview_asset_path sanitize_asset_path
  refine ⟨fun h1 => ?_, fun h1 h2 h3 => ?_, fun h1 h2 h3 => ?_⟩
  · rcases h1 with h | h <;> simp [h]
  · simp [h1, h2, h3]
  · simp [h1, h2, h3]

/-- Claim C3, witness: a traversal path, a wrong-extension path and a clean
path, resolved concretely. -/
theorem C3_witness :
    validate_preview_asset_path "p" "../x.svg" = .error .invalidPath ∧
    validate_preview_asset_path "p" "x.txt" = .error .unsupportedType ∧
    validate_preview_asset_path "p" "sub/x.SVG" =
      .ok "projects/p/previews/sub/x.SVG" := by
  refine ⟨(C3_validate_asset_path "p" "../x.svg").1 (Or.inr (by decide)),
    (C3_validate_asset_path "p" "x.txt").2.1 (by decide) (by decide) (by decide),
    ?_⟩
  rw [(C3_validate_asset_path "p" "sub/x.SVG").2.2 (by decide) (by decide)
    (by decide)]
  exact congrArg Except.ok (by decide)

end CircuitScope

namespace CircuitScope

/-! ## Loading the preview index (`load_preview_index`)

`storage.read` yields raw bytes; `content_bytes.decode("utf-8")` validates
them as strict UTF-8 (raising `UnicodeDecodeError` otherwise) and
`json.loads` parses the decoded text (raising `json.JSONDecodeError`
otherwise).  The stdlib JSON parser is outside the embedded code and enters
the model as the `parseJson` argument, applied to the byte content (UTF-8
decoding is injective, so no information is lost).  The `except` clause of
the source catches exactly `(StorageError, json.JSONDecodeError)`.
-/

/-- Strict UTF-8 validity of a byte list, as checked by
`bytes.decode("utf-8")`: the standard 1-4 byte forms, no overlongs, no
surrogates, nothing above U+10FFFF. -/
def utf8Valid : List Nat → Bool
  | [] => true
  | b :: rest =>
    if b ≤ 0x7F then utf8Valid rest
    else if 0xC2 ≤ b ∧ b ≤ 0xDF then
      match rest with
      | b1 :: r => (0x80 ≤ b1 && b1 ≤ 0xBF) && utf8Valid r
      | [] => false
    else if b = 0xE0 then
      match rest with
      | b1 :: b2 :: r =>
        (0xA0 ≤ b1 && b1 ≤ 0xBF) && (0x80 ≤ b2 && b2 ≤ 0xBF) && utf8Valid r
      | _ => false
    else if (0xE1 ≤ b ∧ b ≤ 0xEC) ∨ b = 0xEE ∨ b = 0xEF then
      match rest with
      | b1 :: b2 :: r =>
        (0x80 ≤ b1 && b1 ≤ 0xBF) && (0x80 ≤ b2 && b2 ≤ 0xBF) && utf8Valid r
      | _ => false
    else if b = 0xED then
      match rest with
      | b1 :: b2 :: r =>
        (0x80 ≤ b1 && b1 ≤ 0x9F) && (0x80 ≤ b2 && b2 ≤ 0xBF) && utf8Valid r
      | _ => false
    else if b = 0xF0 then
      match rest with
      | b1 :: b2 :: b3 :: r =>
        (0x90 ≤ b1 && b1 ≤ 0xBF) && (0x80 ≤ b2 && b2 ≤ 0xBF) &&
          (0x80 ≤ b3 && b3 ≤ 0xBF) && utf8Valid r
      | _ => false
    else if 0xF1 ≤ b ∧ b ≤ 0xF3 then
      match rest with
      | b1 :: b2 :: b3 :: r =>
        (0x80 ≤ b1 && b1 ≤ 0xBF) && (0x80 ≤ b2 && b2 ≤ 0xBF) &&
          (0x80 ≤ b3 && b3 ≤ 0xBF) && utf8Valid r
      | _ => false
    else if b = 0xF4 then
      match rest with
      | b1 :: b2 :: b3 :: r =>
        (0x80 ≤ b1 && b1 ≤ 0x8F) && (0x80 ≤ b2 && b2 ≤ 0xBF) &&
          (0x80 ≤ b3 && b3 ≤ 0xBF) && utf8Valid r
      | _ => false
    else false

/-- The only exception `load_preview_index` can let escape in the model. -/
inductive LoadError where
  | unicodeDecodeError
deriving DecidableEq

/-- `{"project": {}, "schematics": [], "layouts": [], "models": []}`. -/
def emptyIndex : PreviewIndex :=
  { project := [], schematics := [], layouts := [], models := [] }

/-- `load_preview_index`: a `StorageError` from `read` or a
`JSONDecodeError` from `json.loads` is caught and answered with the empty
manifest; a `UnicodeDecodeError` from `.decode("utf-8")` is not in the
`except` clause and propagates. -/
def load_preview_index (read : Except Unit (List Nat))
    (parseJson : List Nat → Except Unit PreviewIndex) :
    Except LoadError PreviewIndex :=
  match read with
  | .error _ => .ok emptyIndex
  | .ok content =>
    if utf8Valid content then
      match parseJson content with
      | .error _ => .ok emptyIndex
      | .ok idx => .ok idx
    else .error .unicodeDecodeError

/-! ### Claim C10 -/

/-- Claim C10, counterexample: stored content `[0xFF]` is not decodable, and
`load_preview_index` raises (returns an error) instead of returning the
empty manifest structure, refuting "when the stored manifest cannot be read
or decoded it returns the empty manifest structure". -/
theorem C10_counterexample :
    load_preview_index (Except.ok [0xFF]) (fun _ => Except.error ()) =
      Except.error LoadError.unicodeDecodeError := rfl

/-- Claim C10, amended: `load_preview_index` never propagates a storage
error or a JSON-parse error — in both cases it returns the empty manifest
structure — but stored bytes that are not valid UTF-8 raise a
`UnicodeDecodeError` that does propagate. -/
theorem C10_error_routing (read : Except Unit (List Nat))
    (parseJson : List Nat → Except Unit PreviewIndex) :
    (read = .error () → load_preview_index read parseJson = .ok emptyIndex) ∧
    (∀ content, read = .ok content → utf8Valid content = true →
      parseJson content = .error () →
      load_preview_index read parseJson = .ok emptyIndex) ∧
    (∀ content, read = .ok content → utf8Valid content = false →
      load_preview_index read parseJson =
        .error LoadError.unicodeDecodeError) := by
  refine ⟨fun h => ?_, fun content h hu hp => ?_, fun content h hu => ?_⟩
  · rw [h]; rfl
  · rw [h]; unfold load_preview_index; simp [hu, hp]
  · rw [h]; unfold load_preview_index; simp [hu]

/-- Claim C10, witness: a storage read failure yields the empty manifest. -/
theorem C10_witness :
    load_preview_index (Except.error ()) (fun _ => Except.error ()) =
      .ok emptyIndex :=
  (C10_error_routing (Except.error ()) (fun _ => Except.error ())).1 rfl

end CircuitScope

namespace CircuitScope

/-! ## SVG grid composition (`_grid_dimensions`, `_compose_svg_grid`)

Geometry is embedded over `ℚ` (Python floats modelled by exact arithmetic);
`math.sqrt`/`math.ceil` on the small sheet counts are modelled by exact
real square root and ceiling.  An SVG document is an element tree; the
numeric `width`/`height` attributes of the composed root and the
`translate`/`scale` transforms of the placed groups are carried as typed
fields rather than serialized strings.
-/

/-- `math.ceil(math.sqrt n)` for a natural `n`, computed exactly. -/
def ceilSqrtNat (n : ℕ) : ℕ :=
  if Nat.sqrt n * Nat.sqrt n = n then Nat.sqrt n else Nat.sqrt n + 1

/-- `_grid_dimensions` / `grid_dimensions`: `(1, 1)` for non-positive
counts, otherwise `(rows, columns)` with `columns = ceil(sqrt count)` and
`rows = ceil(count / columns)`. -/
def grid_dimensions (count : ℤ) : ℕ × ℕ :=
  if count ≤ 0 then (1, 1)
  else
    let n := count.toNat
    let cols := ceilSqrtNat n
    ((n + cols - 1) / cols, cols)

/-- An XML element: tag, attributes, children. -/
inductive Xml where
  | elem (tag : String) (attrs : List (String × String)) (children : List Xml)

/-- Children of an element (`list(tree.getroot())`). -/
def Xml.children : Xml → List Xml
  | .elem _ _ c => c

/-- `_SvgDimensions`. -/
structure SvgDims where
  width : ℚ
  height : ℚ

/-- `math.isclose(a, b)` with the default `rel_tol=1e-09`, `abs_tol=0.0`:
`abs(a-b) <= max(rel_tol * max(abs(a), abs(b)), abs_tol)`. -/
def isClose (a b : ℚ) : Bool :=
  decide (|a - b| ≤ 1 / 1000000000 * max |a| |b|)

/-- One placed `<g>` group of the composed SVG: its `translate(x,y)`
transform, the optional uniform `scale(u)` transform of the inner sheet
group, and the deep-copied children of the source sheet. -/
structure PlacedGroup where
  translateX : ℚ
  translateY : ℚ
  scale : Option ℚ
  children : List Xml

/-- The composed SVG document: root `width`/`height` attributes (equal to
the `viewBox` extent) and the placed groups, in input order. -/
structure ComposedSvg where
  width : ℚ
  height : ℚ
  groups : List PlacedGroup

/-- `max(dim.width for dim in dimensions)`. -/
def maxWidth : List (Xml × SvgDims) → ℚ
  | [] => 0
  | s :: rest => rest.foldl (fun a t => max a t.2.width) s.2.width

/-- `max(dim.height for dim in dimensions)`. -/
def maxHeight : List (Xml × SvgDims) → ℚ
  | [] => 0
  | s :: rest => rest.foldl (fun a t => max a t.2.height) s.2.height

/-- Body of the placement loop of `_compose_svg_grid` for the `enumerate`d
sheet `(i, s)`: grid cell `(i // cols, i % cols)`, translation by the cell
pitch, uniform scale `min(max_width/width, max_height/height)` (guarding
zero dimensions), omitted when `math.isclose(u, 1.0)`. -/
def placeSheet (maxW maxH cellW cellH : ℚ) (cols : ℕ)
    (is : ℕ × (Xml × SvgDims)) : PlacedGroup :=
  let i := is.1
  let s := is.2
  let sx := if s.2.width = 0 then 1 else maxW / s.2.width
  let sy := if s.2.height = 0 then 1 else maxH / s.2.height
  let u := min sx sy
  { translateX := ((i % cols : ℕ) : ℚ) * cellW
    translateY := ((i / cols : ℕ) : ℚ) * cellH
    scale := if isClose u 1 then none else some u
    children := s.1.children }

/-- `_compose_svg_grid` / `compose_svg_grid` on parsed sheets (tree plus
dimensions as produced by `_parse_svg_dimensions`): `none` when no SVGs
were supplied (`RuntimeError`), otherwise the composed document. -/
def compose_svg_grid (sheets : List (Xml × SvgDims)) (pad : ℚ) :
    Option ComposedSvg :=
  match sheets with
  | [] => none
  | _ :: _ =>
    let maxW := maxWidth sheets
    let maxH := maxHeight sheets
    let rc := grid_dimensions (sheets.length : ℤ)
    let padX := maxW * pad
    let padY := maxH * pad
    let cellW := maxW + padX
    let cellH := maxH + padY
    some { width := (rc.2 : ℚ) * cellW - padX
           height := (rc.1 : ℚ) * cellH - padY
           groups := sheets.enum.map (placeSheet maxW maxH cellW cellH rc.2) }

/-! ### Grid arithmetic lemmas -/

/-- `(n + c - 1) / c` rounds up: multiplying back reaches `n`. -/
theorem ceil_div_mul_ge (n c : ℕ) (hc : 0 < c) : n ≤ (n + c - 1) / c * c := by
  have h1 := Nat.div_add_mod (n + c - 1) c
  have h2 : (n + c - 1) % c < c := Nat.mod_lt _ hc
  rw [Nat.mul_comm]
  generalize hm : c * ((n + c - 1) / c) = m at h1
  omega

/-- `ceilSqrtNat` is positive on positive input. -/
theorem ceilSqrtNat_pos (n : ℕ) (hn : 0 < n) : 0 < ceilSqrtNat n := by
  unfold ceilSqrtNat
  by_cases h : Nat.sqrt n * Nat.sqrt n = n
  · rw [if_pos h]
    have := Nat.sqrt_pos.mpr hn
    omega
  · rw [if_neg h]; omega

/-- `ceilSqrtNat` computes the ceiling of the real square root. -/
theorem natCeil_sqrt (n : ℕ) : ⌈Real.sqrt n⌉₊ = ceilSqrtNat n := by
  unfold ceilSqrtNat
  by_cases h : Nat.sqrt n * Nat.sqrt n = n
  · rw [if_pos h]
    have hcast : ((Nat.sqrt n : ℝ)) ^ 2 = (n : ℝ) := by
      rw [sq]
      exact_mod_cast congrArg (Nat.cast : ℕ → ℝ) h
    rw [← hcast, Real.sqrt_sq (by positivity), Nat.ceil_natCast]
  · rw [if_neg h]
    have hlt : Nat.sqrt n * Nat.sqrt n < n :=
      lt_of_le_of_ne (Nat.sqrt_le n) h
    have h1 : (Nat.sqrt n : ℝ) < Real.sqrt n := by
      rw [Real.lt_sqrt (by positivity)]
      rw [sq]
      exact_mod_cast hlt
    have h2 : Real.sqrt n ≤ (Nat.sqrt n : ℝ) + 1 := by
      have hn2 : (n : ℝ) ≤ ((Nat.sqrt n : ℝ) + 1) ^ 2 := by
        have hlt2 := Nat.lt_succ_sqrt n
        rw [sq]
        exact_mod_cast Nat.le_of_lt hlt2
      calc Real.sqrt n ≤ Real.sqrt (((Nat.sqrt n : ℝ) + 1) ^ 2) :=
            Real.sqrt_le_sqrt hn2
        _ = (Nat.sqrt n : ℝ) + 1 := Real.sqrt_sq (by positivity)
    rw [Nat.ceil_eq_iff (Nat.succ_ne_zero _)]
    refine ⟨?_, ?_⟩
    · simpa using h1
    · push_cast
      exact h2

/-- `(n + c - 1) / c` computes the ceiling of the exact division. -/
theorem natCeil_div (n c : ℕ) (hc : 0 < c) :
    ⌈(n : ℚ) / (c : ℚ)⌉₊ = (n + c - 1) / c := by
  rcases Nat.eq_zero_or_pos n with hn | hn
  · subst hn
    simp only [Nat.cast_zero, zero_div, Nat.ceil_zero, Nat.zero_add]
    exact (Nat.div_eq_of_lt (by omega)).symm
  · set q := (n + c - 1) / c with hqdef
    have hq1 : 1 ≤ q := (Nat.one_le_div_iff hc).mpr (by omega)
    have hub : n ≤ q * c := ceil_div_mul_ge n c hc
    have hlb : (q - 1) * c < n := by
      have h1 := Nat.div_add_mod (n + c - 1) c
      have h2 : (n + c - 1) % c < c := Nat.mod_lt _ hc
      have h3 : c * q = c * (q - 1) + c := by
        have hq' : q - 1 + 1 = q := by omega
        calc c * q = c * (q - 1 + 1) := by rw [hq']
          _ = c * (q - 1) + c := by ring
      rw [Nat.mul_comm (q - 1) c]
      generalize hm : c * (q - 1) = m at h3
      generalize hM : c * q = M at h1 h3
      omega
    rw [Nat.ceil_eq_iff (by omega)]
    refine ⟨?_, ?_⟩
    · rw [lt_div_iff₀ (by positivity)]
      exact_mod_cast hlb
    · rw [div_le_iff₀ (by positivity)]
      exact_mod_cast hub

end CircuitScope

namespace CircuitScope

/-! ### Claims C5, C6, C7, C9 -/

/-- `grid_dimensions` on a positive natural count, in terms of
`ceilSqrtNat`. -/
theorem grid_dimensions_natCast (n : ℕ) (hn : 0 < n) :
    grid_dimensions (n : ℤ) =
      ((n + ceilSqrtNat n - 1) / ceilSqrtNat n, ceilSqrtNat n) := by
  unfold grid_dimensions
  rw [if_neg (by omega)]
  norm_num

/-- `grid_dimensions` on a positive natural count realizes the spec shape
`columns = ceil(sqrt n)`, `rows = ceil(n / columns)`. -/
theorem grid_dimensions_spec (n : ℕ) (hn : 0 < n) :
    grid_dimensions (n : ℤ) =
      (⌈(n : ℚ) / (⌈Real.sqrt (n : ℝ)⌉₊ : ℚ)⌉₊, ⌈Real.sqrt (n : ℝ)⌉₊) := by
  rw [natCeil_sqrt n, natCeil_div n _ (ceilSqrtNat_pos n hn),
    grid_dimensions_natCast n hn]

/-- Claim C9: `_grid_dimensions` returns `(1, 1)` for every non-positive
count, and for positive counts its `(rows, columns)` cover the count:
`rows * columns ≥ count`. -/
theorem C9_grid_dimensions (count : ℤ) :
    (count ≤ 0 → grid_dimensions count = (1, 1)) ∧
    (1 ≤ count →
      count ≤ ((grid_dimensions count).1 * (grid_dimensions count).2 : ℕ)) := by
  constructor
  · intro h
    unfold grid_dimensions
    rw [if_pos h]
  · intro h
    unfold grid_dimensions
    rw [if_neg (by omega)]
    have hc := ceilSqrtNat_pos count.toNat (by omega)
    have hkey := ceil_div_mul_ge count.toNat (ceilSqrtNat count.toNat) hc
    show count ≤
      ((count.toNat + ceilSqrtNat count.toNat - 1) / ceilSqrtNat count.toNat *
        ceilSqrtNat count.toNat : ℕ)
    generalize hm : (count.toNat + ceilSqrtNat count.toNat - 1) /
      ceilSqrtNat count.toNat * ceilSqrtNat count.toNat = m at hkey ⊢
    omega

/-- Claim C9, witness: the degenerate case and a positive case. -/
theorem C9_witness :
    grid_dimensions (-1) = (1, 1) ∧
    (5 : ℤ) ≤ ((grid_dimensions 5).1 * (grid_dimensions 5).2 : ℕ) :=
  ⟨(C9_grid_dimensions (-1)).1 (by decide),
    (C9_grid_dimensions 5).2 (by decide)⟩

/-- Claim C5: for a non-empty sheet list the composition succeeds, the grid
shape is `columns = ceil(sqrt N)`, `rows = ceil(N / columns)`, and the
canvas is `columns * (max_width * (1 + padding)) - max_width * padding`
wide (and symmetrically high). -/
theorem C5_canvas_size (sheets : List (Xml × SvgDims)) (pad : ℚ)
    (h : sheets ≠ []) :
    ∃ c, compose_svg_grid sheets pad = some c ∧
      grid_dimensions (sheets.length : ℤ) =
        (⌈(sheets.length : ℚ) / (⌈Real.sqrt (sheets.length : ℝ)⌉₊ : ℚ)⌉₊,
          ⌈Real.sqrt (sheets.length : ℝ)⌉₊) ∧
      c.width = (⌈Real.sqrt (sheets.length : ℝ)⌉₊ : ℚ) *
          (maxWidth sheets * (1 + pad)) - maxWidth sheets * pad ∧
      c.height = (⌈(sheets.length : ℚ) /
            (⌈Real.sqrt (sheets.length : ℝ)⌉₊ : ℚ)⌉₊ : ℚ) *
          (maxHeight sheets * (1 + pad)) - maxHeight sheets * pad := by
  have hn : 0 < sheets.length := List.length_pos.mpr h
  have hspec := grid_dimensions_spec sheets.length hn
  cases sheets with
  | nil => exact absurd rfl h
  | cons s0 rest =>
    have h2 : (grid_dimensions ((s0 :: rest).length : ℤ)).2 =
        ⌈Real.sqrt (((s0 :: rest).length : ℕ) : ℝ)⌉₊ := by rw [hspec]
    have h1 : (grid_dimensions ((s0 :: rest).length : ℤ)).1 =
        ⌈(((s0 :: rest).length : ℕ) : ℚ) /
          (⌈Real.sqrt (((s0 :: rest).length : ℕ) : ℝ)⌉₊ : ℚ)⌉₊ := by
      rw [hspec]
    refine ⟨_, rfl, hspec, ?_, ?_⟩
    · show ((grid_dimensions ((s0 :: rest).length : ℤ)).2 : ℚ) *
          (maxWidth (s0 :: rest) + maxWidth (s0 :: rest) * pad) -
          maxWidth (s0 :: rest) * pad = _
      rw [h2]
      ring
    · show ((grid_dimensions ((s0 :: rest).length : ℤ)).1 : ℚ) *
          (maxHeight (s0 :: rest) + maxHeight (s0 :: rest) * pad) -
          maxHeight (s0 :: rest) * pad = _
      rw [h1]
      ring

end CircuitScope

namespace CircuitScope

/-- The `i`-th placed group of the composed document is exactly the
placement of the `i`-th input sheet. -/
theorem compose_groups_get (sheets : List (Xml × SvgDims)) (pad : ℚ)
    (i : ℕ) (s : Xml × SvgDims) (hs : sheets[i]? = some s)
    (hne : sheets ≠ []) :
    ∃ c, compose_svg_grid sheets pad = some c ∧
      c.groups[i]? = some (placeSheet (maxWidth sheets) (maxHeight sheets)
        (maxWidth sheets + maxWidth sheets * pad)
        (maxHeight sheets + maxHeight sheets * pad)
        (grid_dimensions (sheets.length : ℤ)).2 (i, s)) := by
  cases sheets with
  | nil => exact absurd rfl hne
  | cons s0 rest =>
    refine ⟨_, rfl, ?_⟩
    show ((s0 :: rest).enum.map _)[i]? = _
    rw [List.getElem?_map, List.getElem?_enum, hs]
    rfl

/-- Claim C6: item `i` is placed at grid cell
`(row = i / columns, col = i % columns)`, translated by
`(col * cell_pitch_x, row * cell_pitch_y)` with
`cell_pitch = max * (1 + padding)`, its content scaled by the uniform
aspect-preserving factor `min(max_width/width, max_height/height)`, and the
scale transform omitted exactly when that factor is `math.isclose` to 1. -/
theorem C6_item_placement (sheets : List (Xml × SvgDims)) (pad : ℚ) (i : ℕ)
    (s : Xml × SvgDims) (hs : sheets[i]? = some s)
    (hw : 0 < s.2.width) (hh : 0 < s.2.height) :
    ∃ c g, compose_svg_grid sheets pad = some c ∧ c.groups[i]? = some g ∧
      g.translateX =
        ((i % (grid_dimensions (sheets.length : ℤ)).2 : ℕ) : ℚ) *
          (maxWidth sheets * (1 + pad)) ∧
      g.translateY =
        ((i / (grid_dimensions (sheets.length : ℤ)).2 : ℕ) : ℚ) *
          (maxHeight sheets * (1 + pad)) ∧
      g.scale = (if isClose (min (maxWidth sheets / s.2.width)
            (maxHeight sheets / s.2.height)) 1 then none
          else some (min (maxWidth sheets / s.2.width)
            (maxHeight sheets / s.2.height))) := by
  have hne : sheets ≠ [] := by
    cases sheets with
    | nil => simp at hs
    | cons s0 rest => simp
  obtain ⟨c, hc, hg⟩ := compose_groups_get sheets pad i s hs hne
  refine ⟨c, _, hc, hg, ?_, ?_, ?_⟩
  · show ((i % (grid_dimensions (sheets.length : ℤ)).2 : ℕ) : ℚ) *
        (maxWidth sheets + maxWidth sheets * pad) = _
    ring
  · show ((i / (grid_dimensions (sheets.length : ℤ)).2 : ℕ) : ℚ) *
        (maxHeight sheets + maxHeight sheets * pad) = _
    ring
  · simp [placeSheet, hw.ne', hh.ne']

/-- Claim C7: composition succeeds on non-empty input with exactly one
placed group per input sheet (no drop, no duplication), and group `i`
contains node-for-node the children of source sheet `i`; the model is a
pure function of the inputs (`deepcopy` — sources are never mutated). -/
theorem C7_content_preserved (sheets : List (Xml × SvgDims)) (pad : ℚ)
    (h : sheets ≠ []) :
    ∃ c, compose_svg_grid sheets pad = some c ∧
      c.groups.length = sheets.length ∧
      ∀ i : ℕ, (c.groups[i]?).map PlacedGroup.children =
        (sheets[i]?).map (fun s => s.1.children) := by
  cases sheets with
  | nil => exact absurd rfl h
  | cons s0 rest =>
    refine ⟨_, rfl, ?_, ?_⟩
    · show ((s0 :: rest).enum.map _).length = _
      rw [List.length_map, List.enum_length]
    · intro i
      show (((s0 :: rest).enum.map _)[i]?).map _ = _
      rw [List.getElem?_map, List.getElem?_enum]
      rcases hi : (s0 :: rest)[i]? with _ | t
      · rfl
      · simp [placeSheet]

/-- Concrete sheets used by the composition witnesses. -/
def exSheets : List (Xml × SvgDims) :=
  [(Xml.elem "svg" [] [], { width := 4, height := 3 }),
   (Xml.elem "svg" [] [], { width := 2, height := 1 })]

/-- Second sheet of `exSheets`. -/
def exSheet1 : Xml × SvgDims := (Xml.elem "svg" [] [], { width := 2, height := 1 })

/-- Claim C5, witness at two concrete sheets with the default padding. -/
theorem C5_witness :
    exSheets ≠ [] ∧
    (∃ c, compose_svg_grid exSheets (1 / 20) = some c ∧
      grid_dimensions (exSheets.length : ℤ) =
        (⌈(exSheets.length : ℚ) /
            (⌈Real.sqrt (exSheets.length : ℝ)⌉₊ : ℚ)⌉₊,
          ⌈Real.sqrt (exSheets.length : ℝ)⌉₊) ∧
      c.width = (⌈Real.sqrt (exSheets.length : ℝ)⌉₊ : ℚ) *
          (maxWidth exSheets * (1 + 1 / 20)) - maxWidth exSheets * (1 / 20) ∧
      c.height = (⌈(exSheets.length : ℚ) /
            (⌈Real.sqrt (exSheets.length : ℝ)⌉₊ : ℚ)⌉₊ : ℚ) *
          (maxHeight exSheets * (1 + 1 / 20)) -
          maxHeight exSheets * (1 / 20)) :=
  ⟨by simp [exSheets], C5_canvas_size exSheets (1 / 20) (by simp [exSheets])⟩

/-- Claim C6, witness: placement of item 1 of the concrete sheets. -/
theorem C6_witness :
    exSheets[1]? = some exSheet1 ∧ 0 < exSheet1.2.width ∧
    0 < exSheet1.2.height ∧
    (∃ c g, compose_svg_grid exSheets (1 / 20) = some c ∧
      c.groups[1]? = some g ∧
      g.translateX =
        ((1 % (grid_dimensions (exSheets.length : ℤ)).2 : ℕ) : ℚ) *
          (maxWidth exSheets * (1 + 1 / 20)) ∧
      g.translateY =
        ((1 / (grid_dimensions (exSheets.length : ℤ)).2 : ℕ) : ℚ) *
          (maxHeight exSheets * (1 + 1 / 20)) ∧
      g.scale = (if isClose (min (maxWidth exSheets / exSheet1.2.width)
            (maxHeight exSheets / exSheet1.2.height)) 1 then none
          else some (min (maxWidth exSheets / exSheet1.2.width)
            (maxHeight exSheets / exSheet1.2.height)))) :=
  ⟨rfl, by norm_num [exSheet1], by norm_num [exSheet1],
    C6_item_placement exSheets (1 / 20) 1 exSheet1 rfl
      (by norm_num [exSheet1]) (by norm_num [exSheet1])⟩

/-- Claim C7, witness at the concrete sheets. -/
theorem C7_witness :
    exSheets ≠ [] ∧
    (∃ c, compose_svg_grid exSheets (1 / 20) = some c ∧
      c.groups.length = exSheets.length ∧
      ∀ i : ℕ, (c.groups[i]?).map PlacedGroup.children =
        (exSheets[i]?).map (fun s => s.1.children)) :=
  ⟨by simp [exSheets], C7_content_preserved exSheets (1 / 20) (by simp [exSheets])⟩

end CircuitScope
